import Mathlib

/-!
Shallow embedding of the animal lifecycle and container management engine
(`Substance.cpp`): animals with species × stage, nine containers managed by a
`Manager`, substance transitions, attacks and period aging, together with the
command-level step function driven by `main`'s dispatch loop.

Definitions mirror the C++ source; theorems establish the specified
properties of the engine.
-/

namespace Substance

/-- The dynamic type of an animal: the seven concrete classes of the source
(`Fish`, `Bird`, `Mouse`, their `Better` variants, and `Monster`). -/
inductive AType where
  | fish
  | bird
  | mouse
  | betterFish
  | betterBird
  | betterMouse
  | monster
deriving DecidableEq, Repr

/-- `getTypeCode` of each class. -/
def AType.typeCode : AType → String
  | .fish => "F"
  | .bird => "B"
  | .mouse => "M"
  | .betterFish => "BF"
  | .betterBird => "BB"
  | .betterMouse => "BM"
  | .monster => "MONSTER"

/-- `getTypeName` of each class. -/
def AType.typeName : AType → String
  | .fish => "Fish"
  | .bird => "Bird"
  | .mouse => "Mouse"
  | .betterFish => "BetterFish"
  | .betterBird => "BetterBird"
  | .betterMouse => "BetterMouse"
  | .monster => "Monster"

/-- `isNormal` virtual: true for the three base species classes. -/
def AType.isNormal : AType → Bool
  | .fish | .bird | .mouse => true
  | _ => false

/-- `isBetter` virtual: true for the three `Better` classes. -/
def AType.isBetter : AType → Bool
  | .betterFish | .betterBird | .betterMouse => true
  | _ => false

/-- `isMonster` virtual: true only for `Monster`. -/
def AType.isMonster : AType → Bool
  | .monster => true
  | _ => false

/-- An animal object: dynamic type, `name`, and `daysLived`. -/
structure Animal where
  atype : AType
  name : String
  daysLived : Int
deriving DecidableEq, Repr

/-- One line of console output emitted by the engine, one constructor per
distinct message template of the source. -/
inductive Output where
  | identity (name : String) (daysLived : Int)
  | attacking (typeName : String)
  | died (name : String)
  | notFound
  | invalidRemoval
  | freedomApply
  | freedomRemove
  | freedomAttack
deriving DecidableEq, Repr

/-- The strict comparator `SortAnimals`: days lived ascending, ties broken by
name ascending. -/
def sortLT (a b : Animal) : Bool :=
  decide (a.daysLived < b.daysLived) ||
    (a.daysLived == b.daysLived && decide (a.name < b.name))

/-- The non-strict order induced by `sortLT`; `stable_sort` with comparator
`sortLT` is merge sort with this `le`. -/
def sortLE (a b : Animal) : Bool := !(sortLT b a)

/-- `ContainerBase::update`: stable sort of the animal list. -/
def update (l : List Animal) : List Animal := l.mergeSort sortLE

/-- `ContainerBase::add`: push back, then restore sort order. -/
def addAnimal (l : List Animal) (a : Animal) : List Animal := update (l ++ [a])

/-- The death test of `ContainerBase::incrementDays`: a monster dies past
1 day, every other animal past 10 days. -/
def isDead (a : Animal) : Bool :=
  (a.atype.isMonster && decide (1 < a.daysLived)) ||
    (!a.atype.isMonster && decide (10 < a.daysLived))

/-- `ContainerBase::incrementDays`: age every animal by one day, report and
remove the dead in traversal order, then restore sort order. -/
def incrementDays (l : List Animal) : List Animal × List Output :=
  let aged := l.map (fun a => { a with daysLived := a.daysLived + 1 })
  (update (aged.filter (fun a => !isDead a)),
    (aged.filter isDead).map (fun a => Output.died a.name))

/-- `ContainerBase::clear`: report the death of every animal, leave the
container empty. -/
def clearAll (l : List Animal) : List Animal × List Output :=
  ([], l.map (fun a => Output.died a.name))

/-- The nine containers held by `Manager`. -/
inductive ContainerId where
  | cageBird
  | cageBetterBird
  | cageMouse
  | cageBetterMouse
  | aquariumFish
  | aquariumBetterFish
  | aquariumMouse
  | aquariumBetterMouse
  | freedom
deriving DecidableEq, Repr

/-- The manager state: the contents of each of the nine containers. -/
abbrev Manager := ContainerId → List Animal

/-- The initial manager: every container empty. -/
def initManager : Manager := fun _ => []

/-- Replace the contents of one container. -/
def setC (m : Manager) (cid : ContainerId) (l : List Animal) : Manager :=
  Function.update m cid l

/-- `Manager::pickContainer`: dispatch (habitat string, type code) to a
container. -/
def pickContainer (cont typeCode : String) : Option ContainerId :=
  if cont = "Freedom" then some .freedom
  else if cont = "Cage" then
    if typeCode = "B" then some .cageBird
    else if typeCode = "BB" then some .cageBetterBird
    else if typeCode = "M" then some .cageMouse
    else if typeCode = "BM" then some .cageBetterMouse
    else none
  else if cont = "Aquarium" then
    if typeCode = "F" then some .aquariumFish
    else if typeCode = "BF" then some .aquariumBetterFish
    else if typeCode = "M" then some .aquariumMouse
    else if typeCode = "BM" then some .aquariumBetterMouse
    else none
  else none

/-- `Manager::makeAnimal`: build a normal or better animal from a type code. -/
def makeAnimal (type name : String) (d : Int) : Option Animal :=
  if type = "M" then some ⟨.mouse, name, d⟩
  else if type = "B" then some ⟨.bird, name, d⟩
  else if type = "F" then some ⟨.fish, name, d⟩
  else if type = "BM" then some ⟨.betterMouse, name, d⟩
  else if type = "BB" then some ⟨.betterBird, name, d⟩
  else if type = "BF" then some ⟨.betterFish, name, d⟩
  else none

/-- The `Better` class constructed from a normal animal's class in
`handleApplySubstance` (via the `getTypeCode` dispatch). -/
def betterOf : AType → Option AType
  | .mouse => some .betterMouse
  | .bird => some .betterBird
  | .fish => some .betterFish
  | _ => none

/-- The normal class rebuilt from a `Better` animal's class in
`handleRemoveSubstance` (via the `getTypeCode` dispatch). -/
def normalOf : AType → Option AType
  | .betterMouse => some .mouse
  | .betterBird => some .bird
  | .betterFish => some .fish
  | _ => none

/-- `Manager::handleCreate`: build the animal, print its identity, then place
it in the requested container, silently discarding it when the combination is
inadmissible. -/
def handleCreate (m : Manager) (type name cont : String) (d : Int) :
    Manager × List Output :=
  match makeAnimal type name d with
  | none => (m, [])
  | some a =>
    if cont = "Freedom" then
      (setC m .freedom (addAnimal (m .freedom) a), [Output.identity a.name a.daysLived])
    else
      match pickContainer cont type with
      | some cid => (setC m cid (addAnimal (m cid) a), [Output.identity a.name a.daysLived])
      | none => (m, [Output.identity a.name a.daysLived])

/-- `Manager::handleApplySubstance`: normal → better (days halved rounding
up), or better → monster (purge the container, monster to freedom). -/
def handleApplySubstance (m : Manager) (cont type : String) (pos : Int) :
    Manager × List Output :=
  if cont = "Freedom" then (m, [Output.freedomApply])
  else
    match pickContainer cont type with
    | none => (m, [Output.notFound])
    | some cid =>
      let l := m cid
      if pos < 0 ∨ (l.length : Int) ≤ pos then (m, [Output.notFound])
      else
        match l.get? pos.toNat with
        | none => (m, [Output.notFound])
        | some old =>
          if old.atype.isMonster then (m, [Output.notFound])
          else
            let m1 := setC m cid (update (l.eraseIdx pos.toNat))
            if old.atype.isNormal then
              match betterOf old.atype with
              | none => (m1, [])
              | some bt =>
                let b : Animal := ⟨bt, old.name, (old.daysLived + 1).tdiv 2⟩
                match pickContainer cont bt.typeCode with
                | some cid2 => (setC m1 cid2 (addAnimal (m1 cid2) b), [])
                | none => (m1, [])
            else if old.atype.isBetter then
              let mon : Animal := ⟨.monster, old.name, 1⟩
              let purged := clearAll (m1 cid)
              let m2 := setC m1 cid purged.1
              (setC m2 .freedom (addAnimal (m2 .freedom) mon), purged.2)
            else (m1, [])

/-- `Manager::handleRemoveSubstance`: better → normal, doubling days lived. -/
def handleRemoveSubstance (m : Manager) (cont type : String) (pos : Int) :
    Manager × List Output :=
  if cont = "Freedom" then (m, [Output.freedomRemove])
  else
    match pickContainer cont type with
    | none => (m, [Output.notFound])
    | some cid =>
      let l := m cid
      if pos < 0 ∨ (l.length : Int) ≤ pos then (m, [Output.notFound])
      else
        match l.get? pos.toNat with
        | none => (m, [Output.notFound])
        | some old =>
          if !old.atype.isBetter then (m, [Output.invalidRemoval])
          else
            let m1 := setC m cid (update (l.eraseIdx pos.toNat))
            match normalOf old.atype with
            | none => (m1, [])
            | some nt =>
              let na : Animal := ⟨nt, old.name, old.daysLived * 2⟩
              match pickContainer cont nt.typeCode with
              | some cid2 => (setC m1 cid2 (addAnimal (m1 cid2) na), [])
              | none => (m1, [])

/-- `Manager::handleAttack`: the attacker announces itself and the target is
removed; any invalid container, index, or equal indices is `Animal not
found`. -/
def handleAttack (m : Manager) (cont type : String) (p1 p2 : Int) :
    Manager × List Output :=
  if cont = "Freedom" then (m, [Output.freedomAttack])
  else
    match pickContainer cont type with
    | none => (m, [Output.notFound])
    | some cid =>
      let l := m cid
      if p1 < 0 ∨ (l.length : Int) ≤ p1 ∨ p2 < 0 ∨ (l.length : Int) ≤ p2 ∨ p1 = p2 then
        (m, [Output.notFound])
      else
        match l.get? p1.toNat, l.get? p2.toNat with
        | some atk, some _ =>
          (setC m cid (update (l.eraseIdx p2.toNat)), [Output.attacking atk.atype.typeName])
        | _, _ => (m, [Output.notFound])

/-- `Manager::handleTalkFreedom`: report the freedom animal at `pos`. -/
def handleTalkFreedom (m : Manager) (pos : Int) : Manager × List Output :=
  if pos < 0 ∨ ((m .freedom).length : Int) ≤ pos then (m, [Output.notFound])
  else
    match (m .freedom).get? pos.toNat with
    | some a => (m, [Output.identity a.name a.daysLived])
    | none => (m, [Output.notFound])

/-- `Manager::handleTalk`: report the animal at `pos` of the resolved
container. -/
def handleTalk (m : Manager) (cont type : String) (pos : Int) :
    Manager × List Output :=
  if cont = "Freedom" then handleTalkFreedom m pos
  else
    match pickContainer cont type with
    | none => (m, [Output.notFound])
    | some cid =>
      let l := m cid
      if pos < 0 ∨ (l.length : Int) ≤ pos then (m, [Output.notFound])
      else
        match l.get? pos.toNat with
        | some a => (m, [Output.identity a.name a.daysLived])
        | none => (m, [Output.notFound])

/-- One container step of `Manager::doPeriod`: age the chosen container and
append its death reports. -/
def periodStep (p : Manager × List Output) (cid : ContainerId) :
    Manager × List Output :=
  let r := incrementDays (p.1 cid)
  (setC p.1 cid r.1, p.2 ++ r.2)

/-- `Manager::doPeriod`: age all nine containers in the source's fixed
order. -/
def doPeriod (m : Manager) : Manager × List Output :=
  periodStep (periodStep (periodStep (periodStep (periodStep (periodStep
    (periodStep (periodStep (periodStep (m, []) .cageBird) .cageBetterBird)
      .cageMouse) .cageBetterMouse) .aquariumFish) .aquariumBetterFish)
        .aquariumMouse) .aquariumBetterMouse) .freedom

/-- The commands dispatched by `main`, including the dedicated Freedom forms
of the substance, attack, and talk commands. -/
inductive Cmd where
  | create (type name cont : String) (d : Int)
  | applySub (cont type : String) (pos : Int)
  | applySubFreedom (pos : Int)
  | removeSub (cont type : String) (pos : Int)
  | removeSubFreedom (pos : Int)
  | attackCmd (cont type : String) (p1 p2 : Int)
  | attackFreedom (p1 p2 : Int)
  | talk (cont type : String) (pos : Int)
  | talkFreedom (pos : Int)
  | period

/-- The engine's step: execute one command against the manager state,
yielding the new state and the emitted output lines. -/
def step (m : Manager) : Cmd → Manager × List Output
  | .create t n c d => handleCreate m t n c d
  | .applySub c t p => handleApplySubstance m c t p
  | .applySubFreedom _ => (m, [Output.freedomApply])
  | .removeSub c t p => handleRemoveSubstance m c t p
  | .removeSubFreedom _ => (m, [Output.freedomRemove])
  | .attackCmd c t p1 p2 => handleAttack m c t p1 p2
  | .attackFreedom _ _ => (m, [Output.freedomAttack])
  | .talk c t p => handleTalk m c t p
  | .talkFreedom p => handleTalkFreedom m p
  | .period => doPeriod m

/-- Run a command sequence from the empty initial registry. -/
def run (cmds : List Cmd) : Manager :=
  cmds.foldl (fun m c => (step m c).1) initManager

/-- An output line reporting a failure: `Animal not found`, `Invalid
substance removal`, or one of the three Freedom rejections. -/
def Output.isFailure : Output → Bool
  | .notFound | .invalidRemoval | .freedomApply | .freedomRemove | .freedomAttack => true
  | _ => false

/-- A container's list is in sort order: every pair respects `sortLE`. -/
def SortedL (l : List Animal) : Prop :=
  List.Pairwise (fun a b => sortLE a b = true) l

/-- Every container of the manager is in sort order. -/
def SortedInv (m : Manager) : Prop := ∀ cid, SortedL (m cid)

/-- No animal of the list is a monster. -/
def monsterFree (l : List Animal) : Prop := ∀ a ∈ l, a.atype.isMonster = false

/-- Monsters live only in the freedom container. -/
def MonsterInv (m : Manager) : Prop :=
  ∀ cid, cid ≠ ContainerId.freedom → monsterFree (m cid)

/-! ### Order lemmas for the sorting comparator -/

/-- Characterization of the non-strict sort order. -/
theorem sortLE_eq_true_iff (a b : Animal) :
    sortLE a b = true ↔
      a.daysLived < b.daysLived ∨ (a.daysLived = b.daysLived ∧ a.name ≤ b.name) := by
  simp only [sortLE, sortLT, Bool.not_eq_true', Bool.or_eq_false_iff,
    decide_eq_false_iff_not, Bool.and_eq_false_iff, beq_eq_false_iff_ne, ne_eq, not_lt]
  constructor
  · rintro ⟨h1, h2 | h2⟩
    · rcases eq_or_lt_of_le h1 with h | h
      · exact absurd h.symm h2
      · exact Or.inl h
    · rcases eq_or_lt_of_le h1 with h | h
      · exact Or.inr ⟨h, h2⟩
      · exact Or.inl h
  · rintro (h | ⟨h1, h2⟩)
    · exact ⟨le_of_lt h, Or.inl (by omega)⟩
    · exact ⟨le_of_eq h1, Or.inr h2⟩

/-- `sortLE` is total. -/
theorem sortLE_total (a b : Animal) : sortLE a b || sortLE b a := by
  rcases lt_trichotomy a.daysLived b.daysLived with h | h | h
  · simp [sortLE_eq_true_iff, h]
  · rcases le_total a.name b.name with hn | hn
    · simp [sortLE_eq_true_iff, h, hn]
    · simp [sortLE_eq_true_iff, h.symm, hn]
  · simp [sortLE_eq_true_iff, h]

/-- `sortLE` is transitive. -/
theorem sortLE_trans (a b c : Animal) (h1 : sortLE a b) (h2 : sortLE b c) :
    sortLE a c := by
  rw [sortLE_eq_true_iff] at h1 h2 ⊢
  rcases h1 with h1 | ⟨h1, h1n⟩ <;> rcases h2 with h2 | ⟨h2, h2n⟩
  · exact Or.inl (by omega)
  · exact Or.inl (by omega)
  · exact Or.inl (by omega)
  · exact Or.inr ⟨by omega, le_trans h1n h2n⟩

/-! ### Container operation lemmas -/

/-- Sorting permutes the list. -/
theorem update_perm (l : List Animal) : (update l).Perm l :=
  List.mergeSort_perm l sortLE

/-- Membership is preserved by sorting. -/
theorem mem_update {a : Animal} {l : List Animal} : a ∈ update l ↔ a ∈ l :=
  List.mem_mergeSort

/-- The sorted list is in sort order. -/
theorem sortedL_update (l : List Animal) : SortedL (update l) :=
  List.sorted_mergeSort sortLE_trans sortLE_total l

/-- The empty container is in sort order. -/
theorem sortedL_nil : SortedL [] := List.Pairwise.nil

/-- Adding is, up to order, consing. -/
theorem addAnimal_perm (l : List Animal) (a : Animal) :
    (addAnimal l a).Perm (a :: l) :=
  (update_perm (l ++ [a])).trans (List.perm_append_singleton a l)

/-- Membership after an add. -/
theorem mem_addAnimal {a b : Animal} {l : List Animal} :
    a ∈ addAnimal l b ↔ a ∈ l ∨ a = b := by
  rw [(addAnimal_perm l b).mem_iff]
  simp [or_comm]

/-- Reading the container just written. -/
theorem setC_self (m : Manager) (cid : ContainerId) (l : List Animal) :
    setC m cid l cid = l := by
  unfold setC
  exact Function.update_same cid l m

/-- Reading a container other than the one written. -/
theorem setC_ne (m : Manager) (cid : ContainerId) (l : List Animal)
    (cid' : ContainerId) (h : cid' ≠ cid) : setC m cid l cid' = m cid' := by
  unfold setC
  exact Function.update_noteq h l m

/-- Sorting a stable-sorted-input: the subsequence of animals with any fixed
age and name is unchanged by `update`. -/
theorem update_filter_key (l : List Animal) (d : Int) (n : String) :
    (update l).filter (fun a => a.daysLived == d && a.name == n) =
      l.filter (fun a => a.daysLived == d && a.name == n) := by
  set p : Animal → Bool := fun a => a.daysLived == d && a.name == n with hp
  have hmem : ∀ a : Animal, p a = true → a.daysLived = d ∧ a.name = n := by
    intro a ha
    simp only [hp, Bool.and_eq_true, beq_iff_eq] at ha
    exact ha
  have hpair : (l.filter p).Pairwise (fun a b => sortLE a b = true) := by
    apply List.pairwise_of_forall_mem_list
    intro a ha b hb
    rcases hmem a (List.of_mem_filter ha) with ⟨ha1, ha2⟩
    rcases hmem b (List.of_mem_filter hb) with ⟨hb1, hb2⟩
    rw [sortLE_eq_true_iff]
    exact Or.inr ⟨by omega, le_of_eq (ha2.trans hb2.symm)⟩
  have hsub : (l.filter p).Sublist (update l) :=
    List.sublist_mergeSort sortLE_trans sortLE_total hpair (List.filter_sublist l)
  have hsub2 : (l.filter p).Sublist ((update l).filter p) := by
    have := hsub.filter p
    rwa [List.filter_filter, (by simp : (fun a => p a && p a) = p)] at this
  have hlen : ((update l).filter p).length = (l.filter p).length :=
    ((update_perm l).filter p).length_eq
  exact (hsub2.eq_of_length hlen.symm).symm

/-! ### Invariant preservation machinery -/

/-- Writing a sorted list preserves the sortedness invariant. -/
theorem sortedInv_setC {m : Manager} (h : SortedInv m) {cid : ContainerId}
    {l : List Animal} (hl : SortedL l) : SortedInv (setC m cid l) := by
  intro cid'
  by_cases hc : cid' = cid
  · subst hc; rw [setC_self]; exact hl
  · rw [setC_ne _ _ _ _ hc]; exact h cid'

/-- The initial manager is sorted. -/
theorem sortedInv_init : SortedInv initManager := fun _ => sortedL_nil

/-- A non-Freedom habitat string never resolves to the freedom container. -/
theorem pickContainer_ne_freedom {cont ty : String} {cid : ContainerId}
    (hc : cont ≠ "Freedom") (h : pickContainer cont ty = some cid) :
    cid ≠ ContainerId.freedom := by
  rw [pickContainer, if_neg hc] at h
  repeat' split at h
  all_goals first
    | exact Option.noConfusion h
    | (injection h with h; subst h; decide)

/-- `makeAnimal` never builds a monster. -/
theorem makeAnimal_not_monster {t n : String} {d : Int} {a : Animal}
    (h : makeAnimal t n d = some a) : a.atype.isMonster = false := by
  unfold makeAnimal at h
  repeat' split at h
  all_goals first
    | exact Option.noConfusion h
    | (injection h with h; subst h; rfl)

/-- The better form of a normal animal is not a monster. -/
theorem betterOf_not_monster {t bt : AType} (h : betterOf t = some bt) :
    bt.isMonster = false := by
  cases t <;> simp only [betterOf] at h <;>
    first
      | exact Option.noConfusion h
      | (injection h with h; subst h; rfl)

/-- The better form of a normal animal is better-stage. -/
theorem betterOf_isBetter {t bt : AType} (h : betterOf t = some bt) :
    bt.isBetter = true := by
  cases t <;> simp only [betterOf] at h <;>
    first
      | exact Option.noConfusion h
      | (injection h with h; subst h; rfl)

/-- The normal form of a better animal is not a monster. -/
theorem normalOf_not_monster {t nt : AType} (h : normalOf t = some nt) :
    nt.isMonster = false := by
  cases t <;> simp only [normalOf] at h <;>
    first
      | exact Option.noConfusion h
      | (injection h with h; subst h; rfl)

/-- The empty list is monster-free. -/
theorem monsterFree_nil : monsterFree [] := by
  intro a ha
  cases ha

/-- Sorting preserves monster-freedom. -/
theorem monsterFree_update {l : List Animal} (h : monsterFree l) :
    monsterFree (update l) :=
  fun a ha => h a (mem_update.mp ha)

/-- Adding a non-monster preserves monster-freedom. -/
theorem monsterFree_addAnimal {l : List Animal} {b : Animal}
    (h : monsterFree l) (hb : b.atype.isMonster = false) :
    monsterFree (addAnimal l b) := by
  intro a ha
  rcases mem_addAnimal.mp ha with h1 | rfl
  · exact h a h1
  · exact hb

/-- Removing an index preserves monster-freedom. -/
theorem monsterFree_eraseIdx {l : List Animal} (h : monsterFree l) (n : Nat) :
    monsterFree (l.eraseIdx n) :=
  fun a ha => h a ((List.eraseIdx_sublist l n).mem ha)

/-- Aging and filtering preserves monster-freedom. -/
theorem monsterFree_aged_filter {l : List Animal} (h : monsterFree l)
    (p : Animal → Bool) :
    monsterFree ((l.map (fun a => { a with daysLived := a.daysLived + 1 })).filter p) := by
  intro a ha
  rcases List.mem_map.mp (List.mem_of_mem_filter ha) with ⟨b, hb, rfl⟩
  exact h b hb

/-- Writing the freedom container, or a monster-free list, preserves the
monster invariant. -/
theorem monsterInv_setC {m : Manager} (h : MonsterInv m) {cid : ContainerId}
    {l : List Animal} (hl : cid = ContainerId.freedom ∨ monsterFree l) :
    MonsterInv (setC m cid l) := by
  intro cid' hcid'
  by_cases hc : cid' = cid
  · subst hc
    rw [setC_self]
    rcases hl with hl | hl
    · exact absurd hl hcid'
    · exact hl
  · rw [setC_ne _ _ _ _ hc]
    exact h cid' hcid'

/-- The initial manager has no monsters anywhere. -/
theorem monsterInv_init : MonsterInv initManager := fun _ _ => monsterFree_nil

/-- `handleCreate` keeps every container sorted. -/
theorem sortedInv_handleCreate (m : Manager) (t n c : String) (d : Int)
    (h : SortedInv m) : SortedInv (handleCreate m t n c d).1 := by
  unfold handleCreate
  split
  · exact h
  · split
    · exact sortedInv_setC h (sortedL_update _)
    · split
      · exact sortedInv_setC h (sortedL_update _)
      · exact h

/-- `handleApplySubstance` keeps every container sorted. -/
theorem sortedInv_handleApplySubstance (m : Manager) (c t : String) (p : Int)
    (h : SortedInv m) : SortedInv (handleApplySubstance m c t p).1 := by
  unfold handleApplySubstance
  dsimp only
  repeat' split
  all_goals first
    | exact h
    | exact sortedInv_setC h (sortedL_update _)
    | exact sortedInv_setC (sortedInv_setC h (sortedL_update _)) (sortedL_update _)
    | exact sortedInv_setC
        (sortedInv_setC (sortedInv_setC h (sortedL_update _)) sortedL_nil)
        (sortedL_update _)

/-- `handleRemoveSubstance` keeps every container sorted. -/
theorem sortedInv_handleRemoveSubstance (m : Manager) (c t : String) (p : Int)
    (h : SortedInv m) : SortedInv (handleRemoveSubstance m c t p).1 := by
  unfold handleRemoveSubstance
  dsimp only
  repeat' split
  all_goals first
    | exact h
    | exact sortedInv_setC h (sortedL_update _)
    | exact sortedInv_setC (sortedInv_setC h (sortedL_update _)) (sortedL_update _)

/-- `handleAttack` keeps every container sorted. -/
theorem sortedInv_handleAttack (m : Manager) (c t : String) (p1 p2 : Int)
    (h : SortedInv m) : SortedInv (handleAttack m c t p1 p2).1 := by
  unfold handleAttack
  dsimp only
  repeat' split
  all_goals first
    | exact h
    | exact sortedInv_setC h (sortedL_update _)

/-- `handleTalk` does not change the state. -/
theorem handleTalk_fst (m : Manager) (c t : String) (p : Int) :
    (handleTalk m c t p).1 = m := by
  unfold handleTalk handleTalkFreedom
  dsimp only
  repeat' split
  all_goals rfl

/-- `handleTalkFreedom` does not change the state. -/
theorem handleTalkFreedom_fst (m : Manager) (p : Int) :
    (handleTalkFreedom m p).1 = m := by
  unfold handleTalkFreedom
  repeat' split
  all_goals rfl

/-- One period step keeps every container sorted. -/
theorem sortedInv_periodStep (p : Manager × List Output) (cid : ContainerId)
    (h : SortedInv p.1) : SortedInv (periodStep p cid).1 :=
  sortedInv_setC h (sortedL_update _)

/-- `doPeriod` keeps every container sorted. -/
theorem sortedInv_doPeriod (m : Manager) (h : SortedInv m) :
    SortedInv (doPeriod m).1 := by
  unfold doPeriod
  exact sortedInv_periodStep _ _ (sortedInv_periodStep _ _ (sortedInv_periodStep _ _
    (sortedInv_periodStep _ _ (sortedInv_periodStep _ _ (sortedInv_periodStep _ _
      (sortedInv_periodStep _ _ (sortedInv_periodStep _ _
        (sortedInv_periodStep _ _ h))))))))

/-- Every command keeps every container sorted. -/
theorem sortedInv_step (m : Manager) (c : Cmd) (h : SortedInv m) :
    SortedInv (step m c).1 := by
  cases c with
  | create t n c d => exact sortedInv_handleCreate m t n c d h
  | applySub c t p => exact sortedInv_handleApplySubstance m c t p h
  | applySubFreedom p => exact h
  | removeSub c t p => exact sortedInv_handleRemoveSubstance m c t p h
  | removeSubFreedom p => exact h
  | attackCmd c t p1 p2 => exact sortedInv_handleAttack m c t p1 p2 h
  | attackFreedom p1 p2 => exact h
  | talk c t p => exact (handleTalk_fst m c t p).symm ▸ h
  | talkFreedom p => exact (handleTalkFreedom_fst m p).symm ▸ h
  | period => exact sortedInv_doPeriod m h

/-- `handleCreate` never puts a monster outside freedom. -/
theorem monsterInv_handleCreate (m : Manager) (t n c : String) (d : Int)
    (h : MonsterInv m) : MonsterInv (handleCreate m t n c d).1 := by
  unfold handleCreate
  split
  · exact h
  · rename_i a hmk
    split
    · exact monsterInv_setC h (Or.inl rfl)
    · rename_i hc
      split
      · rename_i cid heq
        have hcid : cid ≠ ContainerId.freedom := pickContainer_ne_freedom hc heq
        exact monsterInv_setC h
          (Or.inr (monsterFree_addAnimal (h cid hcid) (makeAnimal_not_monster hmk)))
      · exact h

/-- `handleApplySubstance` never puts a monster outside freedom. -/
theorem monsterInv_handleApplySubstance (m : Manager) (c t : String) (p : Int)
    (h : MonsterInv m) : MonsterInv (handleApplySubstance m c t p).1 := by
  unfold handleApplySubstance
  dsimp only
  split
  · exact h
  · rename_i hc
    split
    · exact h
    · rename_i cid heq
      have hcid : cid ≠ ContainerId.freedom := pickContainer_ne_freedom hc heq
      have hmf : monsterFree (update ((m cid).eraseIdx p.toNat)) :=
        monsterFree_update (monsterFree_eraseIdx (h cid hcid) _)
      split
      · exact h
      · split
        · exact h
        · rename_i old hold
          split
          · exact h
          · split
            · split
              · exact monsterInv_setC h (Or.inr hmf)
              · rename_i bt hbt
                split
                · rename_i cid2 heq2
                  have hcid2 : cid2 ≠ ContainerId.freedom :=
                    pickContainer_ne_freedom hc heq2
                  refine monsterInv_setC (monsterInv_setC h (Or.inr hmf)) (Or.inr ?_)
                  exact monsterFree_addAnimal
                    ((monsterInv_setC h (Or.inr hmf)) cid2 hcid2)
                    (betterOf_not_monster hbt)
                · exact monsterInv_setC h (Or.inr hmf)
            · split
              · exact monsterInv_setC
                  (monsterInv_setC (monsterInv_setC h (Or.inr hmf))
                    (Or.inr monsterFree_nil))
                  (Or.inl rfl)
              · exact monsterInv_setC h (Or.inr hmf)

/-- `handleRemoveSubstance` never puts a monster outside freedom. -/
theorem monsterInv_handleRemoveSubstance (m : Manager) (c t : String) (p : Int)
    (h : MonsterInv m) : MonsterInv (handleRemoveSubstance m c t p).1 := by
  unfold handleRemoveSubstance
  dsimp only
  split
  · exact h
  · rename_i hc
    split
    · exact h
    · rename_i cid heq
      have hcid : cid ≠ ContainerId.freedom := pickContainer_ne_freedom hc heq
      have hmf : monsterFree (update ((m cid).eraseIdx p.toNat)) :=
        monsterFree_update (monsterFree_eraseIdx (h cid hcid) _)
      split
      · exact h
      · split
        · exact h
        · rename_i old hold
          split
          · exact h
          · split
            · exact monsterInv_setC h (Or.inr hmf)
            · rename_i nt hnt
              split
              · rename_i cid2 heq2
                have hcid2 : cid2 ≠ ContainerId.freedom :=
                  pickContainer_ne_freedom hc heq2
                refine monsterInv_setC (monsterInv_setC h (Or.inr hmf)) (Or.inr ?_)
                exact monsterFree_addAnimal
                  ((monsterInv_setC h (Or.inr hmf)) cid2 hcid2)
                  (normalOf_not_monster hnt)
              · exact monsterInv_setC h (Or.inr hmf)

/-- `handleAttack` never puts a monster outside freedom. -/
theorem monsterInv_handleAttack (m : Manager) (c t : String) (p1 p2 : Int)
    (h : MonsterInv m) : MonsterInv (handleAttack m c t p1 p2).1 := by
  unfold handleAttack
  dsimp only
  split
  · exact h
  · rename_i hc
    split
    · exact h
    · rename_i cid heq
      have hcid : cid ≠ ContainerId.freedom := pickContainer_ne_freedom hc heq
      split
      · exact h
      · split
        · exact monsterInv_setC h
            (Or.inr (monsterFree_update (monsterFree_eraseIdx (h cid hcid) _)))
        · exact h

/-- One period step never puts a monster outside freedom. -/
theorem monsterInv_periodStep (p : Manager × List Output) (cid : ContainerId)
    (h : MonsterInv p.1) : MonsterInv (periodStep p cid).1 := by
  unfold periodStep
  dsimp only
  by_cases hcid : cid = ContainerId.freedom
  · exact monsterInv_setC h (Or.inl hcid)
  · refine monsterInv_setC h (Or.inr ?_)
    exact monsterFree_update (monsterFree_aged_filter (h cid hcid) _)

/-- `doPeriod` never puts a monster outside freedom. -/
theorem monsterInv_doPeriod (m : Manager) (h : MonsterInv m) :
    MonsterInv (doPeriod m).1 := by
  unfold doPeriod
  exact monsterInv_periodStep _ _ (monsterInv_periodStep _ _ (monsterInv_periodStep _ _
    (monsterInv_periodStep _ _ (monsterInv_periodStep _ _ (monsterInv_periodStep _ _
      (monsterInv_periodStep _ _ (monsterInv_periodStep _ _
        (monsterInv_periodStep _ _ h))))))))

/-- Every command keeps monsters out of the caged containers. -/
theorem monsterInv_step (m : Manager) (c : Cmd) (h : MonsterInv m) :
    MonsterInv (step m c).1 := by
  cases c with
  | create t n c d => exact monsterInv_handleCreate m t n c d h
  | applySub c t p => exact monsterInv_handleApplySubstance m c t p h
  | applySubFreedom p => exact h
  | removeSub c t p => exact monsterInv_handleRemoveSubstance m c t p h
  | removeSubFreedom p => exact h
  | attackCmd c t p1 p2 => exact monsterInv_handleAttack m c t p1 p2 h
  | attackFreedom p1 p2 => exact h
  | talk c t p => exact (handleTalk_fst m c t p).symm ▸ h
  | talkFreedom p => exact (handleTalkFreedom_fst m p).symm ▸ h
  | period => exact monsterInv_doPeriod m h

/-- Every reachable state keeps monsters out of the caged containers. -/
theorem monsterInv_run (cmds : List Cmd) : MonsterInv (run cmds) := by
  suffices h : ∀ (m : Manager), MonsterInv m →
      MonsterInv (cmds.foldl (fun m c => (step m c).1) m) by
    exact h initManager monsterInv_init
  induction cmds with
  | nil => intro m hm; exact hm
  | cons c cs ih =>
    intro m hm
    exact ih _ (monsterInv_step m c hm)

/-- Every reachable state keeps every container sorted. -/
theorem sortedInv_run (cmds : List Cmd) : SortedInv (run cmds) := by
  suffices h : ∀ (m : Manager), SortedInv m →
      SortedInv (cmds.foldl (fun m c => (step m c).1) m) by
    exact h initManager sortedInv_init
  induction cmds with
  | nil => intro m hm; exact hm
  | cons c cs ih =>
    intro m hm
    exact ih _ (sortedInv_step m c hm)

/-- A normal animal is not a monster. -/
theorem isNormal_not_isMonster {t : AType} (h : t.isNormal = true) :
    t.isMonster = false := by
  cases t <;> first | rfl | exact absurd h (by decide)

/-- A better animal is not a monster. -/
theorem isBetter_not_isMonster {t : AType} (h : t.isBetter = true) :
    t.isMonster = false := by
  cases t <;> first | rfl | exact absurd h (by decide)

/-- A better animal is not normal. -/
theorem isBetter_not_isNormal {t : AType} (h : t.isBetter = true) :
    t.isNormal = false := by
  cases t <;> first | rfl | exact absurd h (by decide)

/-- Unfolded form of `handleApplySubstance` on a resolvable normal animal. -/
theorem handleApplySubstance_normal_eq (m : Manager) (cont type : String)
    (pos : Int) (cid cid2 : ContainerId) (old : Animal) (bt : AType)
    (hfree : cont ≠ "Freedom") (hpick : pickContainer cont type = some cid)
    (hidx : ¬(pos < 0 ∨ ((m cid).length : Int) ≤ pos))
    (hget : (m cid).get? pos.toNat = some old)
    (hnorm : old.atype.isNormal = true)
    (hbt : betterOf old.atype = some bt)
    (hpick2 : pickContainer cont bt.typeCode = some cid2) :
    handleApplySubstance m cont type pos =
      (setC (setC m cid (update ((m cid).eraseIdx pos.toNat))) cid2
        (addAnimal ((setC m cid (update ((m cid).eraseIdx pos.toNat))) cid2)
          ⟨bt, old.name, (old.daysLived + 1).tdiv 2⟩), []) := by
  have hmon : ¬(old.atype.isMonster = true) := by
    rw [isNormal_not_isMonster hnorm]
    exact Bool.false_ne_true
  unfold handleApplySubstance
  rw [if_neg hfree, hpick]
  dsimp only
  rw [if_neg hidx, hget]
  dsimp only
  rw [if_neg hmon, if_pos hnorm, hbt]
  dsimp only
  rw [hpick2]

/-- Unfolded form of `handleApplySubstance` on a resolvable better animal. -/
theorem handleApplySubstance_better_eq (m : Manager) (cont type : String)
    (pos : Int) (cid : ContainerId) (old : Animal)
    (hfree : cont ≠ "Freedom") (hpick : pickContainer cont type = some cid)
    (hidx : ¬(pos < 0 ∨ ((m cid).length : Int) ≤ pos))
    (hget : (m cid).get? pos.toNat = some old)
    (hbet : old.atype.isBetter = true) :
    handleApplySubstance m cont type pos =
      (setC (setC (setC m cid (update ((m cid).eraseIdx pos.toNat))) cid
        (clearAll ((setC m cid (update ((m cid).eraseIdx pos.toNat))) cid)).1)
        ContainerId.freedom
        (addAnimal (((setC (setC m cid (update ((m cid).eraseIdx pos.toNat))) cid
          (clearAll ((setC m cid (update ((m cid).eraseIdx pos.toNat))) cid)).1))
            ContainerId.freedom)
          ⟨AType.monster, old.name, 1⟩),
       (clearAll ((setC m cid (update ((m cid).eraseIdx pos.toNat))) cid)).2) := by
  have hmon : ¬(old.atype.isMonster = true) := by
    rw [isBetter_not_isMonster hbet]
    exact Bool.false_ne_true
  have hnorm : ¬(old.atype.isNormal = true) := by
    rw [isBetter_not_isNormal hbet]
    exact Bool.false_ne_true
  unfold handleApplySubstance
  rw [if_neg hfree, hpick]
  dsimp only
  rw [if_neg hidx, hget]
  dsimp only
  rw [if_neg hmon, if_neg hnorm, if_pos hbet]

/-- Unfolded form of `handleRemoveSubstance` on a resolvable better animal. -/
theorem handleRemoveSubstance_better_eq (m : Manager) (cont type : String)
    (pos : Int) (cid cid2 : ContainerId) (old : Animal) (nt : AType)
    (hfree : cont ≠ "Freedom") (hpick : pickContainer cont type = some cid)
    (hidx : ¬(pos < 0 ∨ ((m cid).length : Int) ≤ pos))
    (hget : (m cid).get? pos.toNat = some old)
    (hbet : old.atype.isBetter = true)
    (hnt : normalOf old.atype = some nt)
    (hpick2 : pickContainer cont nt.typeCode = some cid2) :
    handleRemoveSubstance m cont type pos =
      (setC (setC m cid (update ((m cid).eraseIdx pos.toNat))) cid2
        (addAnimal ((setC m cid (update ((m cid).eraseIdx pos.toNat))) cid2)
          ⟨nt, old.name, old.daysLived * 2⟩), []) := by
  have hb : ¬((!old.atype.isBetter) = true) := by
    rw [hbet]
    exact Bool.false_ne_true
  unfold handleRemoveSubstance
  rw [if_neg hfree, hpick]
  dsimp only
  rw [if_neg hidx, hget]
  dsimp only
  rw [if_neg hb, hnt]
  dsimp only
  rw [hpick2]

/-- The state-change content of the normal transition: the source container
loses the animal, the better container gains the better form. -/
theorem apply_normal_perm_parts (m : Manager) (cont type : String) (pos : Int)
    (cid cid2 : ContainerId) (old : Animal) (bt : AType)
    (hfree : cont ≠ "Freedom") (hpick : pickContainer cont type = some cid)
    (hidx : ¬(pos < 0 ∨ ((m cid).length : Int) ≤ pos))
    (hget : (m cid).get? pos.toNat = some old)
    (hnorm : old.atype.isNormal = true)
    (hbt : betterOf old.atype = some bt)
    (hpick2 : pickContainer cont bt.typeCode = some cid2)
    (hne : cid ≠ cid2) :
    ((handleApplySubstance m cont type pos).1 cid).Perm
      ((m cid).eraseIdx pos.toNat) ∧
    ((handleApplySubstance m cont type pos).1 cid2).Perm
      ((⟨bt, old.name, (old.daysLived + 1).tdiv 2⟩ : Animal) :: m cid2) := by
  rw [handleApplySubstance_normal_eq m cont type pos cid cid2 old bt hfree hpick
    hidx hget hnorm hbt hpick2]
  constructor
  · dsimp only
    rw [setC_ne _ _ _ _ hne, setC_self]
    exact update_perm _
  · dsimp only
    rw [setC_self, setC_ne _ _ _ _ (Ne.symm hne)]
    exact addAnimal_perm _ _

/-- C1: applying substance to a Normal-stage animal of age `a` at a valid
index of a non-Freedom container turns it into a Better-stage animal of the
same species with age `(a+1)/2` (that is, `a/2` rounded up), removes it from
the Normal-stage container, and adds it to the Better-stage container of the
same species and habitat kind. -/
theorem applySubstance_normal_transition (m : Manager) (cont type : String)
    (pos : Int) (cid : ContainerId) (old : Animal)
    (hfree : cont ≠ "Freedom")
    (hpick : pickContainer cont type = some cid)
    (h0 : 0 ≤ pos) (hlt : pos < ((m cid).length : Int))
    (hget : (m cid).get? pos.toNat = some old)
    (hnorm : old.atype.isNormal = true)
    (hcode : type = old.atype.typeCode) :
    ∃ bt cid2,
      betterOf old.atype = some bt ∧
      bt.isBetter = true ∧
      pickContainer cont bt.typeCode = some cid2 ∧
      cid2 ≠ cid ∧
      ((handleApplySubstance m cont type pos).1 cid).Perm
        ((m cid).eraseIdx pos.toNat) ∧
      ((handleApplySubstance m cont type pos).1 cid2).Perm
        ((⟨bt, old.name, (old.daysLived + 1).tdiv 2⟩ : Animal) :: m cid2) ∧
      (0 ≤ old.daysLived →
        old.daysLived ≤ 2 * (old.daysLived + 1).tdiv 2 ∧
        2 * (old.daysLived + 1).tdiv 2 ≤ old.daysLived + 1) := by
  have hidx : ¬(pos < 0 ∨ ((m cid).length : Int) ≤ pos) := by omega
  have harith : 0 ≤ old.daysLived →
      old.daysLived ≤ 2 * (old.daysLived + 1).tdiv 2 ∧
      2 * (old.daysLived + 1).tdiv 2 ≤ old.daysLived + 1 := by
    intro hnn
    rw [Int.tdiv_eq_ediv (by omega) (by omega)]
    omega
  obtain ⟨atp, nm, dy⟩ := old
  cases atp with
  | mouse =>
    subst hcode
    by_cases hc1 : cont = "Cage"
    · subst hc1
      have hcid : cid = ContainerId.cageMouse := by
        have h2 : (some ContainerId.cageMouse : Option ContainerId) = some cid := hpick
        exact (Option.some.inj h2).symm
      subst hcid
      refine ⟨.betterMouse, .cageBetterMouse, rfl, rfl, rfl, by decide, ?_⟩
      have hparts := apply_normal_perm_parts m "Cage" _ pos .cageMouse
        .cageBetterMouse _ .betterMouse hfree hpick hidx hget hnorm rfl rfl
        (by decide)
      exact ⟨hparts.1, hparts.2, harith⟩
    · by_cases hc2 : cont = "Aquarium"
      · subst hc2
        have hcid : cid = ContainerId.aquariumMouse := by
          have h2 : (some ContainerId.aquariumMouse : Option ContainerId) = some cid := hpick
          exact (Option.some.inj h2).symm
        subst hcid
        refine ⟨.betterMouse, .aquariumBetterMouse, rfl, rfl, rfl, by decide, ?_⟩
        have hparts := apply_normal_perm_parts m "Aquarium" _ pos .aquariumMouse
          .aquariumBetterMouse _ .betterMouse hfree hpick hidx hget hnorm rfl rfl
          (by decide)
        exact ⟨hparts.1, hparts.2, harith⟩
      · exfalso
        unfold pickContainer at hpick
        rw [if_neg hfree, if_neg hc1, if_neg hc2] at hpick
        exact Option.noConfusion hpick
  | bird =>
    subst hcode
    by_cases hc1 : cont = "Cage"
    · subst hc1
      have hcid : cid = ContainerId.cageBird := by
        have h2 : (some ContainerId.cageBird : Option ContainerId) = some cid := hpick
        exact (Option.some.inj h2).symm
      subst hcid
      refine ⟨.betterBird, .cageBetterBird, rfl, rfl, rfl, by decide, ?_⟩
      have hparts := apply_normal_perm_parts m "Cage" _ pos .cageBird
        .cageBetterBird _ .betterBird hfree hpick hidx hget hnorm rfl rfl
        (by decide)
      exact ⟨hparts.1, hparts.2, harith⟩
    · by_cases hc2 : cont = "Aquarium"
      · exfalso
        subst hc2
        have h2 : (none : Option ContainerId) = some cid := hpick
        exact Option.noConfusion h2
      · exfalso
        unfold pickContainer at hpick
        rw [if_neg hfree, if_neg hc1, if_neg hc2] at hpick
        exact Option.noConfusion hpick
  | fish =>
    subst hcode
    by_cases hc1 : cont = "Cage"
    · exfalso
      subst hc1
      have h2 : (none : Option ContainerId) = some cid := hpick
      exact Option.noConfusion h2
    · by_cases hc2 : cont = "Aquarium"
      · subst hc2
        have hcid : cid = ContainerId.aquariumFish := by
          have h2 : (some ContainerId.aquariumFish : Option ContainerId) = some cid := hpick
          exact (Option.some.inj h2).symm
        subst hcid
        refine ⟨.betterFish, .aquariumBetterFish, rfl, rfl, rfl, by decide, ?_⟩
        have hparts := apply_normal_perm_parts m "Aquarium" _ pos .aquariumFish
          .aquariumBetterFish _ .betterFish hfree hpick hidx hget hnorm rfl rfl
          (by decide)
        exact ⟨hparts.1, hparts.2, harith⟩
      · exfalso
        unfold pickContainer at hpick
        rw [if_neg hfree, if_neg hc1, if_neg hc2] at hpick
        exact Option.noConfusion hpick
  | betterFish => exact Bool.noConfusion hnorm
  | betterBird => exact Bool.noConfusion hnorm
  | betterMouse => exact Bool.noConfusion hnorm
  | monster => exact Bool.noConfusion hnorm

/-- Witness for C1: the Nemo scenario, a Normal Fish of age 4 in the
Aquarium. -/
theorem applySubstance_normal_transition_witness :
    ∃ bt cid2,
      betterOf (⟨AType.fish, "Nemo", 4⟩ : Animal).atype = some bt ∧
      bt.isBetter = true ∧
      pickContainer "Aquarium" bt.typeCode = some cid2 ∧
      cid2 ≠ ContainerId.aquariumFish ∧
      ((handleApplySubstance
          (setC initManager ContainerId.aquariumFish [⟨AType.fish, "Nemo", 4⟩])
          "Aquarium" "F" 0).1 ContainerId.aquariumFish).Perm
        (((setC initManager ContainerId.aquariumFish [⟨AType.fish, "Nemo", 4⟩])
          ContainerId.aquariumFish).eraseIdx (0 : Int).toNat) ∧
      ((handleApplySubstance
          (setC initManager ContainerId.aquariumFish [⟨AType.fish, "Nemo", 4⟩])
          "Aquarium" "F" 0).1 cid2).Perm
        ((⟨bt, (⟨AType.fish, "Nemo", 4⟩ : Animal).name,
            ((⟨AType.fish, "Nemo", 4⟩ : Animal).daysLived + 1).tdiv 2⟩ : Animal) ::
          (setC initManager ContainerId.aquariumFish [⟨AType.fish, "Nemo", 4⟩]) cid2) ∧
      (0 ≤ (⟨AType.fish, "Nemo", 4⟩ : Animal).daysLived →
        (⟨AType.fish, "Nemo", 4⟩ : Animal).daysLived ≤
          2 * ((⟨AType.fish, "Nemo", 4⟩ : Animal).daysLived + 1).tdiv 2 ∧
        2 * ((⟨AType.fish, "Nemo", 4⟩ : Animal).daysLived + 1).tdiv 2 ≤
          (⟨AType.fish, "Nemo", 4⟩ : Animal).daysLived + 1) :=
  applySubstance_normal_transition
    (setC initManager ContainerId.aquariumFish [⟨AType.fish, "Nemo", 4⟩])
    "Aquarium" "F" 0 ContainerId.aquariumFish ⟨AType.fish, "Nemo", 4⟩
    (by decide) (by decide) (by decide)
    (by rw [setC_self]; decide)
    (by rw [setC_self]; decide)
    (by decide) (by decide)

/-- C2: applying substance to a Better-stage animal at a valid index of a
non-Freedom container creates a Monster of age exactly 1, destroys every
other animal then present in that container with one death report each,
relocates the Monster to the Freedom container, and leaves the original
container empty. -/
theorem applySubstance_better_transition (m : Manager) (cont type : String)
    (pos : Int) (cid : ContainerId) (old : Animal)
    (hfree : cont ≠ "Freedom")
    (hpick : pickContainer cont type = some cid)
    (h0 : 0 ≤ pos) (hlt : pos < ((m cid).length : Int))
    (hget : (m cid).get? pos.toNat = some old)
    (hbet : old.atype.isBetter = true) :
    (handleApplySubstance m cont type pos).1 cid = [] ∧
    ((handleApplySubstance m cont type pos).1 ContainerId.freedom).Perm
      ((⟨AType.monster, old.name, 1⟩ : Animal) :: m ContainerId.freedom) ∧
    (handleApplySubstance m cont type pos).2 =
      (update ((m cid).eraseIdx pos.toNat)).map (fun a => Output.died a.name) ∧
    (handleApplySubstance m cont type pos).2.length = (m cid).length - 1 ∧
    (∀ cid', cid' ≠ cid → cid' ≠ ContainerId.freedom →
      (handleApplySubstance m cont type pos).1 cid' = m cid') := by
  have hcid : cid ≠ ContainerId.freedom := pickContainer_ne_freedom hfree hpick
  have hidx : ¬(pos < 0 ∨ ((m cid).length : Int) ≤ pos) := by omega
  rw [handleApplySubstance_better_eq m cont type pos cid old hfree hpick hidx
    hget hbet]
  dsimp only
  refine ⟨?_, ?_, ?_, ?_, ?_⟩
  · rw [setC_ne _ _ _ _ hcid, setC_self]
    rfl
  · rw [setC_self, setC_ne _ _ _ _ (Ne.symm hcid), setC_ne _ _ _ _ (Ne.symm hcid)]
    exact addAnimal_perm _ _
  · rw [setC_self]
    rfl
  · rw [setC_self]
    have hplen : pos.toNat < (m cid).length := by omega
    simp only [clearAll, List.length_map, update, List.length_mergeSort,
      List.length_eraseIdx_of_lt hplen]
  · intro cid' h1 h2
    rw [setC_ne _ _ _ _ h2, setC_ne _ _ _ _ h1, setC_ne _ _ _ _ h1]

/-- Witness for C2: two BetterFish in the Aquarium; applying substance at
index 0 purges the other fish and frees the Monster. -/
theorem applySubstance_better_transition_witness :
    (handleApplySubstance
        (setC initManager ContainerId.aquariumBetterFish
          [⟨AType.betterFish, "Ariel", 2⟩, ⟨AType.betterFish, "Bubbles", 3⟩])
        "Aquarium" "BF" 0).1 ContainerId.aquariumBetterFish = [] ∧
    ((handleApplySubstance
        (setC initManager ContainerId.aquariumBetterFish
          [⟨AType.betterFish, "Ariel", 2⟩, ⟨AType.betterFish, "Bubbles", 3⟩])
        "Aquarium" "BF" 0).1 ContainerId.freedom).Perm
      ((⟨AType.monster, (⟨AType.betterFish, "Ariel", 2⟩ : Animal).name, 1⟩ : Animal) ::
        (setC initManager ContainerId.aquariumBetterFish
          [⟨AType.betterFish, "Ariel", 2⟩, ⟨AType.betterFish, "Bubbles", 3⟩])
          ContainerId.freedom) ∧
    (handleApplySubstance
        (setC initManager ContainerId.aquariumBetterFish
          [⟨AType.betterFish, "Ariel", 2⟩, ⟨AType.betterFish, "Bubbles", 3⟩])
        "Aquarium" "BF" 0).2 =
      (update (((setC initManager ContainerId.aquariumBetterFish
          [⟨AType.betterFish, "Ariel", 2⟩, ⟨AType.betterFish, "Bubbles", 3⟩])
          ContainerId.aquariumBetterFish).eraseIdx (0 : Int).toNat)).map
        (fun a => Output.died a.name) ∧
    (handleApplySubstance
        (setC initManager ContainerId.aquariumBetterFish
          [⟨AType.betterFish, "Ariel", 2⟩, ⟨AType.betterFish, "Bubbles", 3⟩])
        "Aquarium" "BF" 0).2.length =
      ((setC initManager ContainerId.aquariumBetterFish
          [⟨AType.betterFish, "Ariel", 2⟩, ⟨AType.betterFish, "Bubbles", 3⟩])
          ContainerId.aquariumBetterFish).length - 1 ∧
    (∀ cid', cid' ≠ ContainerId.aquariumBetterFish →
      cid' ≠ ContainerId.freedom →
      (handleApplySubstance
        (setC initManager ContainerId.aquariumBetterFish
          [⟨AType.betterFish, "Ariel", 2⟩, ⟨AType.betterFish, "Bubbles", 3⟩])
        "Aquarium" "BF" 0).1 cid' =
      (setC initManager ContainerId.aquariumBetterFish
          [⟨AType.betterFish, "Ariel", 2⟩, ⟨AType.betterFish, "Bubbles", 3⟩]) cid') :=
  applySubstance_better_transition
    (setC initManager ContainerId.aquariumBetterFish
      [⟨AType.betterFish, "Ariel", 2⟩, ⟨AType.betterFish, "Bubbles", 3⟩])
    "Aquarium" "BF" 0 ContainerId.aquariumBetterFish ⟨AType.betterFish, "Ariel", 2⟩
    (by decide) (by decide) (by decide)
    (by rw [setC_self]; decide)
    (by rw [setC_self]; decide)
    (by decide)

/-- State content of the apply-then-remove round trip on a single-animal
container: ages go `a` → `(a+1)/2` → `((a+1)/2)*2`. -/
theorem roundtrip_core (cont : String) (t bt : AType) (n : String) (a : Int)
    (cid cid2 : ContainerId)
    (hfree : cont ≠ "Freedom")
    (hnorm : t.isNormal = true) (hbt : betterOf t = some bt)
    (hbt2 : bt.isBetter = true) (hnt : normalOf bt = some t)
    (hpick : pickContainer cont t.typeCode = some cid)
    (hpick2 : pickContainer cont bt.typeCode = some cid2)
    (hne : cid ≠ cid2) :
    ((handleApplySubstance (setC initManager cid [⟨t, n, a⟩]) cont t.typeCode 0).1
        cid2 = [⟨bt, n, (a + 1).tdiv 2⟩]) ∧
    ((handleRemoveSubstance
        (handleApplySubstance (setC initManager cid [⟨t, n, a⟩]) cont t.typeCode 0).1
        cont bt.typeCode 0).1 cid = [⟨t, n, ((a + 1).tdiv 2) * 2⟩]) ∧
    ((handleRemoveSubstance
        (handleApplySubstance (setC initManager cid [⟨t, n, a⟩]) cont t.typeCode 0).1
        cont bt.typeCode 0).1 cid2 = []) := by
  have heq1 := handleApplySubstance_normal_eq
    (setC initManager cid [⟨t, n, a⟩]) cont t.typeCode 0 cid cid2 ⟨t, n, a⟩ bt
    hfree hpick (by rw [setC_self]; simp) (by rw [setC_self]; rfl) hnorm hbt hpick2
  have hm1cid2 : (handleApplySubstance (setC initManager cid [⟨t, n, a⟩]) cont
      t.typeCode 0).1 cid2 = [⟨bt, n, (a + 1).tdiv 2⟩] := by
    rw [heq1]
    dsimp only
    rw [setC_self, setC_ne _ _ _ _ (Ne.symm hne), setC_ne _ _ _ _ (Ne.symm hne)]
    simp [addAnimal, update, initManager]
  have hm1cid : (handleApplySubstance (setC initManager cid [⟨t, n, a⟩]) cont
      t.typeCode 0).1 cid = [] := by
    rw [heq1]
    dsimp only
    rw [setC_ne _ _ _ _ hne, setC_self, setC_self]
    simp [update]
  have heq2 := handleRemoveSubstance_better_eq
    (handleApplySubstance (setC initManager cid [⟨t, n, a⟩]) cont t.typeCode 0).1
    cont bt.typeCode 0 cid2 cid ⟨bt, n, (a + 1).tdiv 2⟩ t
    hfree hpick2 (by rw [hm1cid2]; simp) (by rw [hm1cid2]; rfl) hbt2 hnt hpick
  refine ⟨hm1cid2, ?_, ?_⟩
  · rw [heq2]
    dsimp only
    rw [setC_self, setC_ne _ _ _ _ hne, hm1cid]
    simp [addAnimal, update, initManager]
  · rw [heq2]
    dsimp only
    rw [setC_ne _ _ _ _ (Ne.symm hne), setC_self, hm1cid2]
    simp [update]

/-- C3: applying substance to a Normal animal of age `a` and then removing
substance from the resulting Better animal yields a Normal animal of age
`2*⌈a/2⌉`: the identity for even `a`, and `a+1` (the lossy value, preserved)
for odd `a`. -/
theorem substance_roundtrip (cont : String) (t : AType) (n : String) (a : Int)
    (cid : ContainerId)
    (ha : 0 ≤ a) (hnorm : t.isNormal = true) (hfree : cont ≠ "Freedom")
    (hpick : pickContainer cont t.typeCode = some cid) :
    ∃ bt cid2,
      betterOf t = some bt ∧
      normalOf bt = some t ∧
      pickContainer cont bt.typeCode = some cid2 ∧
      ((handleApplySubstance (setC initManager cid [⟨t, n, a⟩]) cont t.typeCode 0).1
          cid2 = [⟨bt, n, (a + 1).tdiv 2⟩]) ∧
      ((handleRemoveSubstance
          (handleApplySubstance (setC initManager cid [⟨t, n, a⟩]) cont t.typeCode 0).1
          cont bt.typeCode 0).1 cid = [⟨t, n, ((a + 1).tdiv 2) * 2⟩]) ∧
      ((handleRemoveSubstance
          (handleApplySubstance (setC initManager cid [⟨t, n, a⟩]) cont t.typeCode 0).1
          cont bt.typeCode 0).1 cid2 = []) ∧
      (a % 2 = 0 → ((a + 1).tdiv 2) * 2 = a) ∧
      (a % 2 = 1 → ((a + 1).tdiv 2) * 2 = a + 1) := by
  have heven : a % 2 = 0 → ((a + 1).tdiv 2) * 2 = a := by
    intro h
    rw [Int.tdiv_eq_ediv (by omega) (by omega)]
    omega
  have hodd : a % 2 = 1 → ((a + 1).tdiv 2) * 2 = a + 1 := by
    intro h
    rw [Int.tdiv_eq_ediv (by omega) (by omega)]
    omega
  cases t with
  | mouse =>
    by_cases hc1 : cont = "Cage"
    · subst hc1
      have hcid : cid = ContainerId.cageMouse := by
        have h2 : (some ContainerId.cageMouse : Option ContainerId) = some cid := hpick
        exact (Option.some.inj h2).symm
      subst hcid
      have hcore := roundtrip_core "Cage" .mouse .betterMouse n a
        .cageMouse .cageBetterMouse (by decide) rfl rfl rfl rfl rfl rfl (by decide)
      exact ⟨.betterMouse, .cageBetterMouse, rfl, rfl, rfl, hcore.1, hcore.2.1,
        hcore.2.2, heven, hodd⟩
    · by_cases hc2 : cont = "Aquarium"
      · subst hc2
        have hcid : cid = ContainerId.aquariumMouse := by
          have h2 : (some ContainerId.aquariumMouse : Option ContainerId) = some cid := hpick
          exact (Option.some.inj h2).symm
        subst hcid
        have hcore := roundtrip_core "Aquarium" .mouse .betterMouse n a
          .aquariumMouse .aquariumBetterMouse (by decide) rfl rfl rfl rfl rfl rfl
          (by decide)
        exact ⟨.betterMouse, .aquariumBetterMouse, rfl, rfl, rfl, hcore.1,
          hcore.2.1, hcore.2.2, heven, hodd⟩
      · exfalso
        unfold pickContainer at hpick
        rw [if_neg hfree, if_neg hc1, if_neg hc2] at hpick
        exact Option.noConfusion hpick
  | bird =>
    by_cases hc1 : cont = "Cage"
    · subst hc1
      have hcid : cid = ContainerId.cageBird := by
        have h2 : (some ContainerId.cageBird : Option ContainerId) = some cid := hpick
        exact (Option.some.inj h2).symm
      subst hcid
      have hcore := roundtrip_core "Cage" .bird .betterBird n a
        .cageBird .cageBetterBird (by decide) rfl rfl rfl rfl rfl rfl (by decide)
      exact ⟨.betterBird, .cageBetterBird, rfl, rfl, rfl, hcore.1, hcore.2.1,
        hcore.2.2, heven, hodd⟩
    · by_cases hc2 : cont = "Aquarium"
      · exfalso
        subst hc2
        have h2 : (none : Option ContainerId) = some cid := hpick
        exact Option.noConfusion h2
      · exfalso
        unfold pickContainer at hpick
        rw [if_neg hfree, if_neg hc1, if_neg hc2] at hpick
        exact Option.noConfusion hpick
  | fish =>
    by_cases hc1 : cont = "Cage"
    · exfalso
      subst hc1
      have h2 : (none : Option ContainerId) = some cid := hpick
      exact Option.noConfusion h2
    · by_cases hc2 : cont = "Aquarium"
      · subst hc2
        have hcid : cid = ContainerId.aquariumFish := by
          have h2 : (some ContainerId.aquariumFish : Option ContainerId) = some cid := hpick
          exact (Option.some.inj h2).symm
        subst hcid
        have hcore := roundtrip_core "Aquarium" .fish .betterFish n a
          .aquariumFish .aquariumBetterFish (by decide) rfl rfl rfl rfl rfl rfl
          (by decide)
        exact ⟨.betterFish, .aquariumBetterFish, rfl, rfl, rfl, hcore.1,
          hcore.2.1, hcore.2.2, heven, hodd⟩
      · exfalso
        unfold pickContainer at hpick
        rw [if_neg hfree, if_neg hc1, if_neg hc2] at hpick
        exact Option.noConfusion hpick
  | betterFish => exact Bool.noConfusion hnorm
  | betterBird => exact Bool.noConfusion hnorm
  | betterMouse => exact Bool.noConfusion hnorm
  | monster => exact Bool.noConfusion hnorm

/-- Witness for C3: Fish "Nemo" of age 4 in the Aquarium; apply then remove
substance. -/
theorem substance_roundtrip_witness :
    ∃ bt cid2,
      betterOf AType.fish = some bt ∧
      normalOf bt = some AType.fish ∧
      pickContainer "Aquarium" bt.typeCode = some cid2 ∧
      ((handleApplySubstance
          (setC initManager ContainerId.aquariumFish [⟨AType.fish, "Nemo", 4⟩])
          "Aquarium" AType.fish.typeCode 0).1 cid2 =
        [⟨bt, "Nemo", ((4 : Int) + 1).tdiv 2⟩]) ∧
      ((handleRemoveSubstance
          (handleApplySubstance
            (setC initManager ContainerId.aquariumFish [⟨AType.fish, "Nemo", 4⟩])
            "Aquarium" AType.fish.typeCode 0).1
          "Aquarium" bt.typeCode 0).1 ContainerId.aquariumFish =
        [⟨AType.fish, "Nemo", (((4 : Int) + 1).tdiv 2) * 2⟩]) ∧
      ((handleRemoveSubstance
          (handleApplySubstance
            (setC initManager ContainerId.aquariumFish [⟨AType.fish, "Nemo", 4⟩])
            "Aquarium" AType.fish.typeCode 0).1
          "Aquarium" bt.typeCode 0).1 cid2 = []) ∧
      ((4 : Int) % 2 = 0 → (((4 : Int) + 1).tdiv 2) * 2 = 4) ∧
      ((4 : Int) % 2 = 1 → (((4 : Int) + 1).tdiv 2) * 2 = 4 + 1) :=
  substance_roundtrip "Aquarium" AType.fish "Nemo" 4 ContainerId.aquariumFish
    (by decide) (by decide) (by decide) (by decide)

/-- C4 (amended): `applySubstance` on a non-Freedom target fails with the
NotFound outcome when the (habitat, code) pair resolves to no container or
the index is out of bounds, and reports the very same NotFound outcome (not
a distinct InvalidTransition error) when the animal at the index is already
a Monster; in every failure case the state is unchanged. -/
theorem applySubstance_failure_spec (m : Manager) (cont type : String)
    (pos : Int) (hfree : cont ≠ "Freedom") :
    (pickContainer cont type = none →
      handleApplySubstance m cont type pos = (m, [Output.notFound])) ∧
    (∀ cid, pickContainer cont type = some cid →
      (pos < 0 ∨ ((m cid).length : Int) ≤ pos) →
      handleApplySubstance m cont type pos = (m, [Output.notFound])) ∧
    (∀ cid old, pickContainer cont type = some cid →
      ¬(pos < 0 ∨ ((m cid).length : Int) ≤ pos) →
      (m cid).get? pos.toNat = some old →
      old.atype.isMonster = true →
      handleApplySubstance m cont type pos = (m, [Output.notFound])) := by
  refine ⟨?_, ?_, ?_⟩
  · intro hnone
    unfold handleApplySubstance
    rw [if_neg hfree, hnone]
  · intro cid hpick hbad
    unfold handleApplySubstance
    rw [if_neg hfree, hpick]
    dsimp only
    rw [if_pos hbad]
  · intro cid old hpick hidx hget hmon
    unfold handleApplySubstance
    rw [if_neg hfree, hpick]
    dsimp only
    rw [if_neg hidx, hget]
    dsimp only
    rw [if_pos hmon]

/-- Counterexample for C4 as stated: with a Monster at a valid index, the
output is the very same `Animal not found` line produced by an out-of-range
index — there is no distinct InvalidTransition outcome in
`handleApplySubstance`. -/
theorem applySubstance_monster_not_distinct_counterexample :
    handleApplySubstance
      (setC initManager ContainerId.cageMouse [⟨AType.monster, "Spike", 1⟩])
      "Cage" "M" 0 =
      (setC initManager ContainerId.cageMouse [⟨AType.monster, "Spike", 1⟩],
        [Output.notFound]) ∧
    handleApplySubstance
      (setC initManager ContainerId.cageMouse [⟨AType.monster, "Spike", 1⟩])
      "Cage" "M" 3 =
      (setC initManager ContainerId.cageMouse [⟨AType.monster, "Spike", 1⟩],
        [Output.notFound]) := by
  constructor
  · rfl
  · rfl

/-- Witness for C4: the amended failure spec applied at the Monster state
and at an out-of-range index. -/
theorem applySubstance_failure_spec_witness :
    handleApplySubstance
      (setC initManager ContainerId.cageMouse [⟨AType.monster, "Spike", 1⟩])
      "Cage" "M" 0 =
      (setC initManager ContainerId.cageMouse [⟨AType.monster, "Spike", 1⟩],
        [Output.notFound]) :=
  (applySubstance_failure_spec
    (setC initManager ContainerId.cageMouse [⟨AType.monster, "Spike", 1⟩])
    "Cage" "M" 0 (by decide)).2.2 ContainerId.cageMouse
    ⟨AType.monster, "Spike", 1⟩ (by decide)
    (by rw [setC_self]; decide)
    (by rw [setC_self]; rfl)
    (by decide)

/-- C6: attack on a non-Freedom container with two valid, distinct indices
destroys and removes exactly the animal at the target index and leaves the
attacker unchanged; it fails with NotFound, changing no state, when the
container does not resolve, either index is out of bounds, or the indices
are equal; a Freedom target is always rejected. -/
theorem attack_spec (m : Manager) (cont type : String) (p1 p2 : Int) :
    (cont = "Freedom" →
      handleAttack m cont type p1 p2 = (m, [Output.freedomAttack])) ∧
    (cont ≠ "Freedom" → pickContainer cont type = none →
      handleAttack m cont type p1 p2 = (m, [Output.notFound])) ∧
    (∀ cid, cont ≠ "Freedom" → pickContainer cont type = some cid →
      (p1 < 0 ∨ ((m cid).length : Int) ≤ p1 ∨ p2 < 0 ∨
        ((m cid).length : Int) ≤ p2 ∨ p1 = p2) →
      handleAttack m cont type p1 p2 = (m, [Output.notFound])) ∧
    (∀ cid atk, cont ≠ "Freedom" → pickContainer cont type = some cid →
      ¬(p1 < 0 ∨ ((m cid).length : Int) ≤ p1 ∨ p2 < 0 ∨
        ((m cid).length : Int) ≤ p2 ∨ p1 = p2) →
      (m cid).get? p1.toNat = some atk →
      ((handleAttack m cont type p1 p2).1 cid).Perm
        ((m cid).eraseIdx p2.toNat) ∧
      atk ∈ (handleAttack m cont type p1 p2).1 cid ∧
      (∀ cid', cid' ≠ cid → (handleAttack m cont type p1 p2).1 cid' = m cid') ∧
      (handleAttack m cont type p1 p2).2 = [Output.attacking atk.atype.typeName]) := by
  refine ⟨?_, ?_, ?_, ?_⟩
  · intro h
    unfold handleAttack
    rw [if_pos h]
  · intro hfree hnone
    unfold handleAttack
    rw [if_neg hfree, hnone]
  · intro cid hfree hpick hbad
    unfold handleAttack
    rw [if_neg hfree, hpick]
    dsimp only
    rw [if_pos hbad]
  · intro cid atk hfree hpick hidx hget
    have hranges : 0 ≤ p1 ∧ p1 < ((m cid).length : Int) ∧ 0 ≤ p2 ∧
        p2 < ((m cid).length : Int) ∧ p1 ≠ p2 := by
      push_neg at hidx
      omega
    have hp2 : p2.toNat < (m cid).length := by omega
    have htgt : (m cid).get? p2.toNat = some ((m cid).get ⟨p2.toNat, hp2⟩) :=
      List.get?_eq_get hp2
    have heq : handleAttack m cont type p1 p2 =
        (setC m cid (update ((m cid).eraseIdx p2.toNat)),
          [Output.attacking atk.atype.typeName]) := by
      unfold handleAttack
      rw [if_neg hfree, hpick]
      dsimp only
      rw [if_neg hidx, hget, htgt]
    rw [heq]
    dsimp only
    refine ⟨?_, ?_, ?_, rfl⟩
    · rw [setC_self]
      exact update_perm _
    · rw [setC_self]
      apply mem_update.mpr
      apply List.mem_eraseIdx_iff_getElem?.mpr
      refine ⟨p1.toNat, by omega, ?_⟩
      rw [← List.get?_eq_getElem?]
      exact hget
    · intro cid' h1
      rw [setC_ne _ _ _ _ h1]

/-- Witness for C6: two Birds in the Cage, attacker at 0, target at 1. -/
theorem attack_spec_witness :
    ((handleAttack
        (setC initManager ContainerId.cageBird
          [⟨AType.bird, "Tweety", 2⟩, ⟨AType.bird, "Zazu", 3⟩])
        "Cage" "B" 0 1).1 ContainerId.cageBird).Perm
      (((setC initManager ContainerId.cageBird
          [⟨AType.bird, "Tweety", 2⟩, ⟨AType.bird, "Zazu", 3⟩])
          ContainerId.cageBird).eraseIdx (1 : Int).toNat) ∧
    (⟨AType.bird, "Tweety", 2⟩ : Animal) ∈
      (handleAttack
        (setC initManager ContainerId.cageBird
          [⟨AType.bird, "Tweety", 2⟩, ⟨AType.bird, "Zazu", 3⟩])
        "Cage" "B" 0 1).1 ContainerId.cageBird ∧
    (∀ cid', cid' ≠ ContainerId.cageBird →
      (handleAttack
        (setC initManager ContainerId.cageBird
          [⟨AType.bird, "Tweety", 2⟩, ⟨AType.bird, "Zazu", 3⟩])
        "Cage" "B" 0 1).1 cid' =
      (setC initManager ContainerId.cageBird
          [⟨AType.bird, "Tweety", 2⟩, ⟨AType.bird, "Zazu", 3⟩]) cid') ∧
    (handleAttack
        (setC initManager ContainerId.cageBird
          [⟨AType.bird, "Tweety", 2⟩, ⟨AType.bird, "Zazu", 3⟩])
        "Cage" "B" 0 1).2 =
      [Output.attacking (⟨AType.bird, "Tweety", 2⟩ : Animal).atype.typeName] :=
  (attack_spec
    (setC initManager ContainerId.cageBird
      [⟨AType.bird, "Tweety", 2⟩, ⟨AType.bird, "Zazu", 3⟩])
    "Cage" "B" 0 1).2.2.2 ContainerId.cageBird ⟨AType.bird, "Tweety", 2⟩
    (by decide) (by decide)
    (by rw [setC_self]; decide)
    (by rw [setC_self]; rfl)

/-- `makeAnimal` keeps the requested name and age. -/
theorem makeAnimal_fields {t n : String} {d : Int} {a : Animal}
    (h : makeAnimal t n d = some a) : a.name = n ∧ a.daysLived = d := by
  unfold makeAnimal at h
  repeat' split at h
  all_goals first
    | exact Option.noConfusion h
    | (injection h with h; subst h; exact ⟨rfl, rfl⟩)

/-- C10: a create command with a recognized species code but an inadmissible
species/habitat combination (or unknown habitat kind) still emits the
identity event for the new animal, then silently discards it: the state is
unchanged and no failure outcome is reported. -/
theorem create_inadmissible_spec (m : Manager) (type name cont : String)
    (d : Int) (a : Animal)
    (hmk : makeAnimal type name d = some a)
    (hfree : cont ≠ "Freedom") (hpick : pickContainer cont type = none) :
    handleCreate m type name cont d = (m, [Output.identity name d]) := by
  obtain ⟨h1, h2⟩ := makeAnimal_fields hmk
  unfold handleCreate
  rw [hmk]
  dsimp only
  rw [if_neg hfree, hpick]
  rw [h1, h2]

/-- Witness for C10: a Fish created in a Cage is greeted and discarded. -/
theorem create_inadmissible_spec_witness :
    handleCreate initManager "F" "Nemo" "Cage" 3 =
      (initManager, [Output.identity "Nemo" 3]) :=
  create_inadmissible_spec initManager "F" "Nemo" "Cage" 3
    ⟨AType.fish, "Nemo", 3⟩ (by decide) (by decide) (by decide)

/-- The outputs of `incrementDays` are all death reports. -/
theorem incrementDays_no_failure (l : List Animal) :
    ∀ o ∈ (incrementDays l).2, o.isFailure = false := by
  unfold incrementDays
  dsimp only
  intro o ho
  obtain ⟨a, -, rfl⟩ := List.mem_map.mp ho
  rfl

/-- `handleCreate` either fails silently or changes state without a
failure report. -/
theorem handleCreate_failure_cases (m : Manager) (t n c : String) (d : Int) :
    (handleCreate m t n c d).1 = m ∨
    (∀ o ∈ (handleCreate m t n c d).2, o.isFailure = false) := by
  unfold handleCreate
  repeat' split
  all_goals first
    | exact Or.inl rfl
    | (right
       intro o ho
       rcases List.mem_singleton.mp ho with rfl
       rfl)

/-- `handleApplySubstance` leaves the state unchanged in every branch that
can emit a failure output. -/
theorem handleApplySubstance_failure_cases (m : Manager) (c t : String) (p : Int) :
    (handleApplySubstance m c t p).1 = m ∨
    (∀ o ∈ (handleApplySubstance m c t p).2, o.isFailure = false) := by
  unfold handleApplySubstance
  dsimp only
  repeat' split
  all_goals first
    | exact Or.inl rfl
    | (right
       intro o ho
       cases ho)
    | (right
       intro o ho
       obtain ⟨a, -, rfl⟩ := List.mem_map.mp ho
       rfl)

/-- `handleRemoveSubstance` leaves the state unchanged in every branch that
can emit a failure output. -/
theorem handleRemoveSubstance_failure_cases (m : Manager) (c t : String) (p : Int) :
    (handleRemoveSubstance m c t p).1 = m ∨
    (∀ o ∈ (handleRemoveSubstance m c t p).2, o.isFailure = false) := by
  unfold handleRemoveSubstance
  dsimp only
  repeat' split
  all_goals first
    | exact Or.inl rfl
    | (right
       intro o ho
       cases ho)

/-- `handleAttack` leaves the state unchanged in every branch that can emit
a failure output. -/
theorem handleAttack_failure_cases (m : Manager) (c t : String) (p1 p2 : Int) :
    (handleAttack m c t p1 p2).1 = m ∨
    (∀ o ∈ (handleAttack m c t p1 p2).2, o.isFailure = false) := by
  unfold handleAttack
  dsimp only
  repeat' split
  all_goals first
    | exact Or.inl rfl
    | (right
       intro o ho
       rcases List.mem_singleton.mp ho with rfl
       rfl)

/-- `doPeriod` reports only deaths, never failures. -/
theorem doPeriod_no_failure (m : Manager) :
    ∀ o ∈ (doPeriod m).2, o.isFailure = false := by
  unfold doPeriod periodStep
  dsimp only
  intro o ho
  simp only [List.mem_append, List.not_mem_nil, false_or] at ho
  rcases ho with ((((((((h | h) | h) | h) | h) | h) | h) | h) | h) <;>
    exact incrementDays_no_failure _ o h

/-- Every command either leaves the state unchanged or reports no failure. -/
theorem step_failure_cases (m : Manager) (c : Cmd) :
    (step m c).1 = m ∨ (∀ o ∈ (step m c).2, o.isFailure = false) := by
  cases c with
  | create t n c d => exact handleCreate_failure_cases m t n c d
  | applySub c t p => exact handleApplySubstance_failure_cases m c t p
  | applySubFreedom p => exact Or.inl rfl
  | removeSub c t p => exact handleRemoveSubstance_failure_cases m c t p
  | removeSubFreedom p => exact Or.inl rfl
  | attackCmd c t p1 p2 => exact handleAttack_failure_cases m c t p1 p2
  | attackFreedom p1 p2 => exact Or.inl rfl
  | talk c t p => exact Or.inl (handleTalk_fst m c t p)
  | talkFreedom p => exact Or.inl (handleTalkFreedom_fst m p)
  | period => exact Or.inr (doPeriod_no_failure m)

/-- C9: every command that reports a failure outcome (NotFound, invalid
removal, or a Freedom rejection) leaves the entire data model exactly as it
was: no command partially mutates state. -/
theorem failure_leaves_state_unchanged (m : Manager) (c : Cmd)
    (hfail : ∃ o ∈ (step m c).2, o.isFailure = true) : (step m c).1 = m := by
  rcases step_failure_cases m c with h | h
  · exact h
  · obtain ⟨o, ho, hf⟩ := hfail
    rw [h o ho] at hf
    exact Bool.noConfusion hf

/-- Witness for C9: applying substance at an empty container reports
NotFound and leaves the state unchanged. -/
theorem failure_leaves_state_unchanged_witness :
    (step initManager (Cmd.applySub "Cage" "M" 0)).1 = initManager :=
  failure_leaves_state_unchanged initManager (Cmd.applySub "Cage" "M" 0)
    ⟨Output.notFound, by decide, by decide⟩

/-- C8: in every state reachable from the empty initial registry, no
Monster-stage animal is present in any Cage or Aquarium container: monsters
exist only in the Freedom container. -/
theorem monster_only_in_freedom (cmds : List Cmd) (cid : ContainerId)
    (hcid : cid ≠ ContainerId.freedom) :
    ∀ a ∈ run cmds cid, a.atype.isMonster = false :=
  monsterInv_run cmds cid hcid

/-- Witness for C8: a reachable caged Mouse is not a monster. -/
theorem monster_only_in_freedom_witness :
    (⟨AType.mouse, "Jerry", 9⟩ : Animal).atype.isMonster = false :=
  monster_only_in_freedom [Cmd.create "M" "Jerry" "Cage" 9]
    ContainerId.cageMouse (by decide) ⟨AType.mouse, "Jerry", 9⟩
    (by simp [run, step, handleCreate, makeAnimal, pickContainer, addAnimal,
      update, setC, initManager])

/-- C7: after every command sequence every container is sorted ascending by
age with ties broken by name ascending, and the sort preserves the previous
relative order of animals equal in both age and name. -/
theorem containers_sorted_and_stable :
    (∀ (cmds : List Cmd) (cid : ContainerId),
      List.Pairwise (fun a b : Animal =>
        a.daysLived < b.daysLived ∨
          (a.daysLived = b.daysLived ∧ a.name ≤ b.name))
        (run cmds cid)) ∧
    (∀ (l : List Animal) (d : Int) (n : String),
      (update l).filter (fun a => a.daysLived == d && a.name == n) =
        l.filter (fun a => a.daysLived == d && a.name == n)) := by
  constructor
  · intro cmds cid
    exact (sortedInv_run cmds cid).imp (fun h => (sortLE_eq_true_iff _ _).mp h)
  · exact update_filter_key

/-- Each container of `doPeriod` is its own `incrementDays` result. -/
theorem doPeriod_fst (m : Manager) (cid : ContainerId) :
    (doPeriod m).1 cid = (incrementDays (m cid)).1 := by
  cases cid <;>
    simp +decide [doPeriod, periodStep, setC, Function.update]

/-- The outputs of `doPeriod` are the per-container death reports in the
source's fixed order. -/
theorem doPeriod_snd (m : Manager) :
    (doPeriod m).2 =
      (incrementDays (m .cageBird)).2 ++ (incrementDays (m .cageBetterBird)).2 ++
      (incrementDays (m .cageMouse)).2 ++ (incrementDays (m .cageBetterMouse)).2 ++
      (incrementDays (m .aquariumFish)).2 ++
      (incrementDays (m .aquariumBetterFish)).2 ++
      (incrementDays (m .aquariumMouse)).2 ++
      (incrementDays (m .aquariumBetterMouse)).2 ++
      (incrementDays (m .freedom)).2 := by
  simp +decide [doPeriod, periodStep, setC, Function.update, List.append_assoc]

/-- C5: `doPeriod` increments every animal's age by exactly 1 in every
container, then destroys (with one death report each, in traversal order)
exactly those animals whose new age exceeds their stage's threshold —
strictly greater than 1 for a Monster, strictly greater than 10 otherwise;
in particular a Mouse created at age 9 in the Cage is alive at age 10 after
one period and is reported dead and removed after a second period. -/
theorem advancePeriod_spec :
    (∀ (m : Manager) (cid : ContainerId),
      ((doPeriod m).1 cid).Perm
        (((m cid).map (fun a => { a with daysLived := a.daysLived + 1 })).filter
          (fun a => !((a.atype.isMonster && decide (1 < a.daysLived)) ||
            (!a.atype.isMonster && decide (10 < a.daysLived)))))) ∧
    (∀ (l : List Animal),
      (incrementDays l).2 =
        ((l.map (fun a => { a with daysLived := a.daysLived + 1 })).filter
          (fun a => (a.atype.isMonster && decide (1 < a.daysLived)) ||
            (!a.atype.isMonster && decide (10 < a.daysLived)))).map
          (fun a => Output.died a.name)) ∧
    (∀ (m : Manager),
      (doPeriod m).2 =
        (incrementDays (m .cageBird)).2 ++ (incrementDays (m .cageBetterBird)).2 ++
        (incrementDays (m .cageMouse)).2 ++ (incrementDays (m .cageBetterMouse)).2 ++
        (incrementDays (m .aquariumFish)).2 ++
        (incrementDays (m .aquariumBetterFish)).2 ++
        (incrementDays (m .aquariumMouse)).2 ++
        (incrementDays (m .aquariumBetterMouse)).2 ++
        (incrementDays (m .freedom)).2) ∧
    (run [Cmd.create "M" "Jerry" "Cage" 9, Cmd.period] ContainerId.cageMouse =
      [⟨AType.mouse, "Jerry", 10⟩]) ∧
    ((step (run [Cmd.create "M" "Jerry" "Cage" 9, Cmd.period]) Cmd.period).1
      ContainerId.cageMouse = []) ∧
    ((step (run [Cmd.create "M" "Jerry" "Cage" 9, Cmd.period]) Cmd.period).2 =
      [Output.died "Jerry"]) := by
  have hmJ : (handleCreate initManager "M" "Jerry" "Cage" 9).1 =
      setC initManager ContainerId.cageMouse [⟨AType.mouse, "Jerry", 9⟩] := by
    simp [handleCreate, makeAnimal, pickContainer, addAnimal, update, initManager]
  have hrun1 : run [Cmd.create "M" "Jerry" "Cage" 9, Cmd.period] =
      (doPeriod (handleCreate initManager "M" "Jerry" "Cage" 9).1).1 := rfl
  have hjerry : run [Cmd.create "M" "Jerry" "Cage" 9, Cmd.period]
      ContainerId.cageMouse = [⟨AType.mouse, "Jerry", 10⟩] := by
    rw [hrun1, doPeriod_fst, hmJ, setC_self]
    simp +decide [incrementDays, isDead, AType.isMonster, update]
  have hempty : ∀ cid, cid ≠ ContainerId.cageMouse →
      run [Cmd.create "M" "Jerry" "Cage" 9, Cmd.period] cid = [] := by
    intro cid h
    rw [hrun1, doPeriod_fst, hmJ, setC_ne _ _ _ _ h]
    simp [incrementDays, initManager, update]
  refine ⟨?_, ?_, doPeriod_snd, hjerry, ?_, ?_⟩
  · intro m cid
    rw [doPeriod_fst]
    exact update_perm _
  · intro l
    rfl
  · show (doPeriod (run [Cmd.create "M" "Jerry" "Cage" 9, Cmd.period])).1
      ContainerId.cageMouse = []
    rw [doPeriod_fst, hjerry]
    simp +decide [incrementDays, isDead, AType.isMonster, update]
  · show (doPeriod (run [Cmd.create "M" "Jerry" "Cage" 9, Cmd.period])).2 =
      [Output.died "Jerry"]
    rw [doPeriod_snd, hjerry, hempty _ (by decide), hempty _ (by decide),
      hempty _ (by decide), hempty _ (by decide), hempty _ (by decide),
      hempty _ (by decide), hempty _ (by decide), hempty _ (by decide)]
    simp +decide [incrementDays, isDead, AType.isMonster, update]

end Substance
